import Mathlib

/-!
Shallow embedding of the ChatMosaic backend (src/Backend/server.js, the
enhanced version of the server) for checking the natural-language
specification against the code.

The store (MongoDB collection of Response documents) is modelled as a
list of Exchange records.  The external AI provider and the markdown
renderer/sanitizer are opaque collaborators, so each handler takes their
outcome as an explicit parameter.  JavaScript strings are modelled by
Lean strings, numbers that matter to the logic by Nat or Int.
-/

namespace ChatMosaic

/-- Whitespace predicate used to model the JavaScript String.trim method. -/
def wsp (c : Char) : Bool := c.isWhitespace

/-- Character-list version of trimming: drop whitespace from both ends. -/
def trimChars (l : List Char) : List Char :=
  ((l.dropWhile wsp).reverse.dropWhile wsp).reverse

/-- Model of the JavaScript question.trim() call. -/
def jsTrim (s : String) : String := String.mk (trimChars s.data)

/-- Substring test on character lists, modelling String.prototype.includes. -/
def hasSubAux (p : List Char) : List Char → Bool
  | [] => p.isEmpty
  | c :: t => p.isPrefixOf (c :: t) || hasSubAux p t

/-- Model of s.includes(pat) for JavaScript strings. -/
def hasSubstr (s pat : String) : Bool := hasSubAux pat.data s.data

/-- The metadata subdocument of the Response schema (server.js lines 237-245).
The sensitive fields userAgent and ipAddress are optional so that the
projection that excludes them can be expressed. The temperature config value
is kept as its raw textual form. -/
structure Metadata where
  hasContext : Bool
  questionLength : Nat
  responseLength : Nat
  userAgent : Option String
  ipAddress : Option String
  model : String
  temperature : String
deriving DecidableEq

/-- One persisted Response document (the Exchange entity of the spec),
after the Response mongoose schema (server.js lines 211-267). -/
structure Exchange where
  id : String
  question : String
  answer : String
  formattedAnswer : String
  processingTime : Nat
  metadata : Metadata
  tags : List String
  rating : Option Int
  isStarred : Bool
  timestamp : Nat
deriving DecidableEq

/-- The document store: the collection of persisted exchanges, in insertion
order. -/
abbrev Store := List Exchange

/-- The question field of a POST /api/chat body: it may be absent, present
but not a string, or a string. -/
inductive QVal where
  | missing
  | notString
  | str (s : String)
deriving DecidableEq

/-- Model of validateAndSanitizeInput (server.js lines 290-323): the thrown
error is the .error case. The suspicious-pattern scan only logs and never
blocks, so it does not affect the result. -/
def validateAndSanitizeInput : QVal → Except String String
  | QVal.missing => Except.error "Question must be a non-empty string"
  | QVal.notString => Except.error "Question must be a non-empty string"
  | QVal.str s =>
    if s = "" then Except.error "Question must be a non-empty string"
    else if (jsTrim s).length = 0 then Except.error "Question cannot be empty"
    else if (jsTrim s).length > 5000 then
      Except.error "Question is too long (maximum 5000 characters)"
    else Except.ok (jsTrim s)

/-- The observable shape of a JavaScript Error in the catch block of
POST /api/chat: its code, its constructor name and its message. -/
structure ErrInfo where
  code : Option String
  name : Option String
  message : String
deriving DecidableEq

/-- The error-categorization logic of the POST /api/chat catch block
(server.js lines 552-589): status, error message and error code. -/
def categorizeError (e : ErrInfo) : Nat × String × String :=
  if hasSubstr e.message "Question" then (400, e.message, "VALIDATION_ERROR")
  else if e.code = some "RESOURCE_EXHAUSTED" || hasSubstr e.message "quota" then
    (429, "AI service quota exceeded. Please try again later.", "QUOTA_EXCEEDED")
  else if e.name = some "ValidationError" then (400, "Invalid input data", "VALIDATION_ERROR")
  else if e.code = some "ENOTFOUND" || e.code = some "ECONNREFUSED" then
    (503, "Service temporarily unavailable", "SERVICE_UNAVAILABLE")
  else (500, "Failed to process your request", "INTERNAL_ERROR")

/-- Outcome of the markdown-to-HTML pipeline (marked.parse followed by
DOMPurify.sanitize), an external collaborator: either it yields sanitized
HTML or it throws. -/
inductive MdOutcome where
  | renderOk (html : String)
  | renderThrow
deriving DecidableEq

/-- HTML escaping used by the formatResponse fallback: each occurrence of
the two angle brackets is replaced by its entity, as in
text.replace of all occurrences of the two characters. -/
def escAux : List Char → List Char
  | [] => []
  | c :: t =>
    (if c = '<' then ['&', 'l', 't', ';']
     else if c = '>' then ['&', 'g', 't', ';'] else [c]) ++ escAux t

/-- Model of the two chained replace calls in the formatResponse fallback. -/
def escapeHtml (s : String) : String := String.mk (escAux s.data)

/-- Opening of the wrapper div returned on the success path of
formatResponse (server.js line 456). -/
def proseWrapperOpen : String :=
  "<div class=\"prose prose-lg max-w-none dark:prose-invert prose-headings:text-gray-900 prose-headings:dark:text-gray-100 prose-p:text-gray-700 prose-p:dark:text-gray-300 prose-a:text-blue-600 prose-a:dark:text-blue-400 prose-strong:text-gray-900 prose-strong:dark:text-gray-100 prose-code:text-pink-600 prose-code:dark:text-pink-400 prose-pre:bg-gray-900 prose-pre:dark:bg-gray-800\">\n      "

/-- Opening of the fallback wrapper div of formatResponse (server.js
lines 462-466). -/
def fallbackOpen : String :=
  "<div class=\"prose prose-lg max-w-none\">\n      <p class=\"text-gray-700 dark:text-gray-300\">"

/-- Model of formatResponse (server.js lines 402-468): on success it wraps
the sanitized HTML in the prose div; if markdown parsing or sanitization
throws, it falls back to returning the HTML-escaped input text inside a
simple wrapper div. -/
def formatResponse (text : String) : MdOutcome → String
  | MdOutcome.renderOk html => proseWrapperOpen ++ html ++ "\n    </div>"
  | MdOutcome.renderThrow => fallbackOpen ++ escapeHtml text ++ "</p>\n    </div>"

/-- The id generated at creation time (server.js line 519): the current
timestamp, a dash and a random suffix. -/
def mkId (now : Nat) (rand : String) : String := toString now ++ "-" ++ rand

/-- Model of ipAddress.replace of the leading-anything-colon regex: keep
only what follows the last colon (strip an IPv6 prefix if present). -/
def stripIp (s : String) : String := (s.splitOn ":").getLastD s

/-- The new Response document built by POST /api/chat (server.js lines
517-535). The schema applies trim to the question field once more. -/
def mkExchange (sq text fmt : String) (now ptime tstamp : Nat)
    (rand ua ip : String) (hasCtx : Bool) (modelName temp : String) : Exchange :=
  { id := mkId now rand
    question := jsTrim sq
    answer := text
    formattedAnswer := fmt
    processingTime := ptime
    metadata :=
      { hasContext := hasCtx
        questionLength := sq.length
        responseLength := text.length
        userAgent := some ua
        ipAddress := some (stripIp ip)
        model := modelName
        temperature := temp }
    tags := []
    rating := none
    isStarred := false
    timestamp := tstamp }

/-- The mongoose validators that run on save: required string paths must be
non-empty, the question is capped at 5000 characters, and a rating, when
set, must lie between 1 and 5. -/
def validExchange (e : Exchange) : Bool :=
  !(e.id == "") && !(e.question == "") && decide (e.question.length ≤ 5000) &&
  !(e.answer == "") && !(e.formattedAnswer == "") &&
  (match e.rating with
   | some r => decide (1 ≤ r) && decide (r ≤ 5)
   | none => true)

/-- Model of newResponse.save(): mongoose validation runs first; the unique
index on id then rejects a duplicate id; otherwise the document is appended
to the collection. -/
def saveExchange (st : Store) (e : Exchange) : Except ErrInfo Store :=
  if !validExchange e then
    Except.error { code := none, name := some "ValidationError", message := "Response validation failed" }
  else if st.any (fun x => x.id == e.id) then
    Except.error { code := none, name := some "MongoServerError", message := "E11000 duplicate key error" }
  else Except.ok (st ++ [e])

/-- Body of a successful POST /api/chat response (server.js lines 540-551). -/
structure PostOk where
  id : String
  answer : String
  formattedAnswer : String
  timestamp : Nat
  processingTime : Nat
deriving DecidableEq

/-- The JSON error envelope returned on every failure path: an error
message and a code. -/
structure ErrBody where
  error : String
  code : String
deriving DecidableEq

/-- Body of a POST /api/chat response. -/
inductive PostBody where
  | ok (b : PostOk)
  | err (e : ErrBody)
deriving DecidableEq

/-- Result of one POST /api/chat request: HTTP status, body, the store
after the request, and whether the AI provider client was invoked. -/
structure PostResult where
  status : Nat
  body : PostBody
  store : Store
  aiCalled : Bool
deriving DecidableEq

/-- Model of the POST /api/chat handler (server.js lines 494-590).
Validation runs first; only when it succeeds is the AI client invoked
(its outcome is the ai parameter) and only then is the store touched.
The formatter outcome, the timestamps, the random id suffix and the
request metadata are explicit parameters. -/
def postChat (st : Store) (q : QVal) (hasCtx : Bool)
    (ai : Except ErrInfo String) (md : MdOutcome)
    (now ptime tstamp : Nat) (rand ua ip modelName temp : String) : PostResult :=
  match validateAndSanitizeInput q with
  | Except.error msg =>
      let r := categorizeError { code := none, name := none, message := msg }
      { status := r.1, body := PostBody.err { error := r.2.1, code := r.2.2 },
        store := st, aiCalled := false }
  | Except.ok sq =>
    match ai with
    | Except.error e =>
        let r := categorizeError e
        { status := r.1, body := PostBody.err { error := r.2.1, code := r.2.2 },
          store := st, aiCalled := true }
    | Except.ok text =>
        let fmt := formatResponse text md
        let ex := mkExchange sq text fmt now ptime tstamp rand ua ip hasCtx modelName temp
        match saveExchange st ex with
        | Except.error e =>
            let r := categorizeError e
            { status := r.1, body := PostBody.err { error := r.2.1, code := r.2.2 },
              store := st, aiCalled := true }
        | Except.ok st2 =>
            { status := 200
              body := PostBody.ok
                { id := ex.id, answer := text, formattedAnswer := fmt,
                  timestamp := tstamp, processingTime := ptime }
              store := st2, aiCalled := true }

/-- The select projection excluding metadata.userAgent and
metadata.ipAddress, applied by the list, get, update, search and export
handlers. -/
def scrubMetadata (m : Metadata) : Metadata :=
  { m with userAgent := none, ipAddress := none }

/-- An exchange as it appears in any API output: sensitive metadata
removed. -/
def scrubExchange (e : Exchange) : Exchange :=
  { e with metadata := scrubMetadata e.metadata }

/-- Result of GET /api/chat/:id. -/
structure GetResult where
  status : Nat
  record : Option Exchange
deriving DecidableEq

/-- Model of the GET /api/chat/:id handler (server.js lines 651-675):
findOne on the id field, 404 when absent, sensitive metadata excluded. -/
def getChatById (st : Store) (i : String) : GetResult :=
  match st.find? (fun e => e.id == i) with
  | some e => { status := 200, record := some (scrubExchange e) }
  | none => { status := 404, record := none }

/-- The isStarred field of a PUT body: absent, present but not a boolean,
or a boolean. -/
inductive BVal where
  | absent
  | notBool
  | val (b : Bool)
deriving DecidableEq

/-- The tags field of a PUT body: absent, present but not an array, or an
array of strings. -/
inductive TVal where
  | absent
  | notArr
  | arr (l : List String)
deriving DecidableEq

/-- Body of a PUT /api/chat/:id request; the rating is a number or absent. -/
structure UpdateReq where
  isStarred : BVal
  rating : Option Int
  tags : TVal
deriving DecidableEq

/-- The whitelist update built by PUT /api/chat/:id (server.js lines
680-691): isStarred only when the value is a boolean, rating only when it
is truthy and between 1 and 5, tags only when it is an array; everything
else is untouched. -/
def applyUpdateData (r : UpdateReq) (e : Exchange) : Exchange :=
  { e with
    isStarred := match r.isStarred with | BVal.val b => b | _ => e.isStarred
    rating := match r.rating with
      | some v => if v ≠ 0 ∧ 1 ≤ v ∧ v ≤ 5 then some v else e.rating
      | none => e.rating
    tags := match r.tags with | TVal.arr l => l | _ => e.tags }

/-- findOneAndUpdate touches only the first document matching the filter. -/
def updateFirst (p : Exchange → Bool) (f : Exchange → Exchange) : Store → Store
  | [] => []
  | e :: t => if p e then f e :: t else e :: updateFirst p f t

/-- Result of PUT /api/chat/:id. -/
structure PutResult where
  status : Nat
  record : Option Exchange
  store : Store
deriving DecidableEq

/-- Model of the PUT /api/chat/:id handler (server.js lines 678-713). -/
def putChat (st : Store) (i : String) (r : UpdateReq) : PutResult :=
  match st.find? (fun e => e.id == i) with
  | some e =>
      { status := 200
        record := some (scrubExchange (applyUpdateData r e))
        store := updateFirst (fun x => x.id == i) (applyUpdateData r) st }
  | none => { status := 404, record := none, store := st }

/-- findOneAndDelete removes only the first document matching the filter. -/
def removeFirst (p : Exchange → Bool) : Store → Store
  | [] => []
  | e :: t => if p e then t else e :: removeFirst p t

/-- Result of DELETE /api/chat/:id. -/
structure DeleteResult where
  status : Nat
  store : Store
deriving DecidableEq

/-- Model of the DELETE /api/chat/:id handler (server.js lines 716-741). -/
def deleteChat (st : Store) (i : String) : DeleteResult :=
  match st.find? (fun e => e.id == i) with
  | some _ => { status := 200, store := removeFirst (fun e => e.id == i) st }
  | none => { status := 404, store := st }

/-- parseInt of an optional numeric query parameter followed by the
JavaScript or-default idiom: absent or zero falls back to the default. -/
def parseIntOr (q : Option Nat) (d : Nat) : Nat :=
  match q with
  | none => d
  | some n => if n = 0 then d else n

/-- The string-or-default idiom for an optional string query parameter. -/
def strOr (q : Option String) (d : String) : String :=
  match q with
  | none => d
  | some s => if s = "" then d else s

/-- A sort-key value of the document store: the BSON value found at the
requested field path — null/missing, a number, a string or a boolean. -/
inductive SortVal where
  | nullv
  | intv (i : Int)
  | strv (s : String)
  | boolv (b : Bool)
deriving DecidableEq

/-- The BSON type rank used when sort keys of different types are
compared: null sorts before numbers, numbers before strings, strings
before booleans. -/
def svRank : SortVal → Nat
  | SortVal.nullv => 0
  | SortVal.intv _ => 1
  | SortVal.strv _ => 2
  | SortVal.boolv _ => 3

/-- Lexicographic order on the character data of two strings. -/
def strLeAux : List Char → List Char → Bool
  | [], _ => true
  | _ :: _, [] => false
  | c :: cs, d :: ds => if c = d then strLeAux cs ds else decide (c < d)

/-- String comparison of the document store. -/
def strLe (a b : String) : Bool := strLeAux a.data b.data

/-- Comparison of two sort-key values: by BSON type rank first, then by
value within the same type. -/
def svLe (a b : SortVal) : Bool :=
  match a, b with
  | SortVal.nullv, SortVal.nullv => true
  | SortVal.intv i, SortVal.intv j => decide (i ≤ j)
  | SortVal.strv s, SortVal.strv t => strLe s t
  | SortVal.boolv x, SortVal.boolv y => !x || y
  | x, y => decide (svRank x ≤ svRank y)

/-- The sort key the document store reads for the dynamic sortBy field of
GET /api/chat: sortBy is taken raw from the query and used as a field
path, so every document path of the schema can be a sort key — including
the sensitive metadata.userAgent and metadata.ipAddress paths.  A path
that no document carries (and the array-valued tags path, whose bespoke
array-sort semantics no claim depends on) reads as null for every
document and so orders all documents alike. -/
def sortFieldVal (f : String) (e : Exchange) : SortVal :=
  if f = "id" then SortVal.strv e.id
  else if f = "question" then SortVal.strv e.question
  else if f = "answer" then SortVal.strv e.answer
  else if f = "formattedAnswer" then SortVal.strv e.formattedAnswer
  else if f = "processingTime" then SortVal.intv e.processingTime
  else if f = "metadata.hasContext" then SortVal.boolv e.metadata.hasContext
  else if f = "metadata.questionLength" then SortVal.intv e.metadata.questionLength
  else if f = "metadata.responseLength" then SortVal.intv e.metadata.responseLength
  else if f = "metadata.userAgent" then
    (match e.metadata.userAgent with
     | some s => SortVal.strv s
     | none => SortVal.nullv)
  else if f = "metadata.ipAddress" then
    (match e.metadata.ipAddress with
     | some s => SortVal.strv s
     | none => SortVal.nullv)
  else if f = "metadata.model" then SortVal.strv e.metadata.model
  else if f = "metadata.temperature" then SortVal.strv e.metadata.temperature
  else if f = "rating" then
    (match e.rating with
     | some r => SortVal.intv r
     | none => SortVal.nullv)
  else if f = "isStarred" then SortVal.boolv e.isStarred
  else if f = "timestamp" then SortVal.intv e.timestamp
  else SortVal.nullv

/-- The comparison realizing the sort object of GET /api/chat: ascending
when sortOrder is asc, descending otherwise. -/
def listLe (f : String) (ord : Int) (a b : Exchange) : Bool :=
  if ord = 1 then svLe (sortFieldVal f a) (sortFieldVal f b)
  else svLe (sortFieldVal f b) (sortFieldVal f a)

/-- Insert into a sorted list, keeping earlier elements first on ties. -/
def orderedIns {α : Type} (le : α → α → Bool) (a : α) : List α → List α
  | [] => [a]
  | b :: t => if le a b then a :: b :: t else b :: orderedIns le a t

/-- Deterministic model of the document store sort. -/
def sortList {α : Type} (le : α → α → Bool) : List α → List α
  | [] => []
  | a :: t => orderedIns le a (sortList le t)

/-- The filter object of GET /api/chat (server.js lines 606-608): starred
only when the query literally says true; a truthy minRating keeps only
documents whose rating is at least that value. -/
def listFilter (starred : Bool) (minR : Option Int) (e : Exchange) : Bool :=
  (if starred then e.isStarred else true) &&
  (match minR with
   | some m => if m = 0 then true else
       (match e.rating with
        | some r => decide (m ≤ r)
        | none => false)
   | none => true)

/-- Query parameters of GET /api/chat. -/
structure ListQuery where
  page : Option Nat
  limit : Option Nat
  sortBy : Option String
  sortOrder : Option String
  starred : Option String
  minRating : Option Int
deriving DecidableEq

/-- Pagination block of the list response. -/
structure Pagination where
  total : Nat
  page : Nat
  pages : Nat
  hasNext : Bool
  hasPrev : Bool
deriving DecidableEq

/-- Result of GET /api/chat. -/
structure ListResult where
  status : Nat
  responses : List Exchange
  pagination : Pagination
deriving DecidableEq

/-- Model of the GET /api/chat handler (server.js lines 593-648): parse
page and limit with defaults, cap the per-page limit at 50, filter, sort,
skip, take, and exclude sensitive metadata from the output. -/
def listChat (st : Store) (q : ListQuery) : ListResult :=
  let page := parseIntOr q.page 1
  let limit := min (parseIntOr q.limit 10) 50
  let skip := (page - 1) * limit
  let f := strOr q.sortBy "timestamp"
  let ord : Int := if q.sortOrder = some "asc" then 1 else -1
  let starred := q.starred == some "true"
  let filtered := st.filter (listFilter starred q.minRating)
  let sorted := sortList (listLe f ord) filtered
  let total := filtered.length
  let pages := (total + limit - 1) / limit
  { status := 200
    responses := ((sorted.drop skip).take limit).map scrubExchange
    pagination :=
      { total := total, page := page, pages := pages
        hasNext := decide (page < pages), hasPrev := decide (1 < page) } }

theorem dropWhile_wsp_idem (l : List Char) :
    (l.dropWhile wsp).dropWhile wsp = l.dropWhile wsp := by
  induction l with
  | nil => rfl
  | cons c t ih =>
    by_cases h : wsp c = true
    · simp [List.dropWhile_cons, h, ih]
    · simp [List.dropWhile_cons, h]

theorem wsp_of_head_dropWhile (l : List Char) (c : Char)
    (h : (l.dropWhile wsp).head? = some c) : wsp c = false := by
  induction l with
  | nil => simp [List.dropWhile] at h
  | cons a t ih =>
    rw [List.dropWhile_cons] at h
    by_cases ha : wsp a = true
    · rw [if_pos ha] at h
      exact ih h
    · rw [if_neg ha] at h
      simp only [List.head?_cons, Option.some.injEq] at h
      subst h
      exact Bool.not_eq_true _ ▸ Bool.eq_false_iff.mpr ha

theorem dropWhile_wsp_eq_self (l : List Char)
    (h : ∀ c, l.head? = some c → wsp c = false) : l.dropWhile wsp = l := by
  cases l with
  | nil => rfl
  | cons a t =>
    rw [List.dropWhile_cons, if_neg]
    simp [h a rfl]

theorem getLast?_dropWhile_wsp (l : List Char) (h : l.dropWhile wsp ≠ []) :
    (l.dropWhile wsp).getLast? = l.getLast? := by
  induction l with
  | nil => exact absurd rfl h
  | cons a t ih =>
    rw [List.dropWhile_cons]
    by_cases ha : wsp a = true
    · rw [if_pos ha]
      rw [List.dropWhile_cons, if_pos ha] at h
      have ht : t ≠ [] := by
        intro e
        subst e
        exact h rfl
      rw [ih h]
      cases t with
      | nil => exact absurd rfl ht
      | cons b t2 => rw [List.getLast?_cons_cons]
    · rw [if_neg ha]

theorem trimChars_idem (l : List Char) : trimChars (trimChars l) = trimChars l := by
  unfold trimChars
  by_cases hBe : (l.dropWhile wsp).reverse.dropWhile wsp = []
  · rw [hBe]
    simp [List.dropWhile]
  · have h1 : ((l.dropWhile wsp).reverse.dropWhile wsp).reverse.dropWhile wsp
        = ((l.dropWhile wsp).reverse.dropWhile wsp).reverse := by
      apply dropWhile_wsp_eq_self
      intro c hc
      rw [List.head?_reverse] at hc
      rw [getLast?_dropWhile_wsp _ hBe] at hc
      rw [List.getLast?_reverse] at hc
      exact wsp_of_head_dropWhile l c hc
    rw [h1, List.reverse_reverse, dropWhile_wsp_idem]

theorem jsTrim_idem (s : String) : jsTrim (jsTrim s) = jsTrim s := by
  show String.mk (trimChars (trimChars s.data)) = String.mk (trimChars s.data)
  rw [trimChars_idem]

theorem ne_empty_of_length_ne_zero (s : String) (h : s.length ≠ 0) : s ≠ "" := by
  intro e
  subst e
  exact h rfl

/-- Unpacking a successful validation: the question was a string, and the
result is its trimmed form, non-blank and within the length bound. -/
theorem validate_ok_elim (q : QVal) (sq : String)
    (h : validateAndSanitizeInput q = Except.ok sq) :
    ∃ s, q = QVal.str s ∧ sq = jsTrim s ∧ sq.length ≠ 0 ∧ sq.length ≤ 5000 := by
  cases q with
  | missing => simp [validateAndSanitizeInput] at h
  | notString => simp [validateAndSanitizeInput] at h
  | str s =>
    refine ⟨s, rfl, ?_⟩
    simp only [validateAndSanitizeInput] at h
    by_cases h0 : s = ""
    · simp [h0] at h
    · rw [if_neg h0] at h
      by_cases h1 : (jsTrim s).length = 0
      · simp [h1] at h
      · rw [if_neg h1] at h
        by_cases h2 : (jsTrim s).length > 5000
        · simp [h2] at h
        · rw [if_neg h2] at h
          simp only [Except.ok.injEq] at h
          subst h
          exact ⟨rfl, h1, by omega⟩

@[simp] theorem scrub_id (e : Exchange) : (scrubExchange e).id = e.id := rfl

@[simp] theorem scrub_question (e : Exchange) : (scrubExchange e).question = e.question := rfl

@[simp] theorem scrub_answer (e : Exchange) : (scrubExchange e).answer = e.answer := rfl

@[simp] theorem scrub_formattedAnswer (e : Exchange) :
    (scrubExchange e).formattedAnswer = e.formattedAnswer := rfl

@[simp] theorem scrub_processingTime (e : Exchange) :
    (scrubExchange e).processingTime = e.processingTime := rfl

@[simp] theorem scrub_tags (e : Exchange) : (scrubExchange e).tags = e.tags := rfl

@[simp] theorem scrub_rating (e : Exchange) : (scrubExchange e).rating = e.rating := rfl

@[simp] theorem scrub_isStarred (e : Exchange) : (scrubExchange e).isStarred = e.isStarred := rfl

@[simp] theorem scrub_timestamp (e : Exchange) : (scrubExchange e).timestamp = e.timestamp := rfl

@[simp] theorem scrub_md_hasContext (e : Exchange) :
    (scrubExchange e).metadata.hasContext = e.metadata.hasContext := rfl

@[simp] theorem scrub_md_questionLength (e : Exchange) :
    (scrubExchange e).metadata.questionLength = e.metadata.questionLength := rfl

@[simp] theorem scrub_md_responseLength (e : Exchange) :
    (scrubExchange e).metadata.responseLength = e.metadata.responseLength := rfl

@[simp] theorem scrub_md_model (e : Exchange) :
    (scrubExchange e).metadata.model = e.metadata.model := rfl

@[simp] theorem scrub_md_temperature (e : Exchange) :
    (scrubExchange e).metadata.temperature = e.metadata.temperature := rfl

theorem escAux_no_angle (l : List Char) : ∀ c ∈ escAux l, c ≠ '<' ∧ c ≠ '>' := by
  induction l with
  | nil =>
    intro c hc
    simp [escAux] at hc
  | cons a t ih =>
    intro c hc
    unfold escAux at hc
    rw [List.mem_append] at hc
    cases hc with
    | inr h => exact ih c h
    | inl h =>
      by_cases h1 : a = '<'
      · rw [if_pos h1] at h
        simp only [List.mem_cons, List.not_mem_nil, or_false] at h
        rcases h with rfl | rfl | rfl | rfl <;> exact ⟨by decide, by decide⟩
      · rw [if_neg h1] at h
        by_cases h2 : a = '>'
        · rw [if_pos h2] at h
          simp only [List.mem_cons, List.not_mem_nil, or_false] at h
          rcases h with rfl | rfl | rfl | rfl <;> exact ⟨by decide, by decide⟩
        · rw [if_neg h2] at h
          simp only [List.mem_cons, List.not_mem_nil, or_false] at h
          subst h
          exact ⟨h1, h2⟩

theorem length_ne_zero_of_ne_empty (s : String) (h : s ≠ "") : s.length ≠ 0 := by
  intro hl
  apply h
  have : s.data = [] := List.length_eq_zero.mp hl
  cases s
  simp only at this
  rw [this]

theorem removeFirst_split (p : Exchange → Bool) (pre post : Store) (e : Exchange)
    (hpre : ∀ x ∈ pre, p x = false) (he : p e = true) :
    removeFirst p (pre ++ e :: post) = pre ++ post := by
  induction pre with
  | nil => simp [removeFirst, he]
  | cons a t ih =>
    have ha := hpre a (by simp)
    show removeFirst p (a :: (t ++ e :: post)) = a :: (t ++ post)
    unfold removeFirst
    rw [if_neg (by simp [ha])]
    rw [ih (fun x hx => hpre x (List.mem_cons_of_mem _ hx))]

theorem find?_split (p : Exchange → Bool) (pre post : Store) (e : Exchange)
    (hpre : ∀ x ∈ pre, p x = false) (he : p e = true) :
    List.find? p (pre ++ e :: post) = some e := by
  rw [List.find?_append]
  have h1 : List.find? p pre = none :=
    List.find?_eq_none.mpr (fun x hx => by simp [hpre x hx])
  rw [h1]
  simp [List.find?_cons, he]

/-! C10.  formatResponse is total, and on a renderer or sanitizer failure
returns the HTML-escaped input inside the fallback wrapper div. -/

/-- C10: formatResponse is total on every input string: whatever the
markdown pipeline does, it returns a defined string; when the pipeline
throws, the result is the input text with its angle brackets replaced by
entities, inside the fallback wrapper div, so POST /api/chat always
obtains a defined formattedAnswer. -/
theorem formatResponse_total_fallback :
    (∀ text md, ∃ out, formatResponse text md = out) ∧
    (∀ text, formatResponse text MdOutcome.renderThrow
        = fallbackOpen ++ escapeHtml text ++ "</p>\n    </div>") ∧
    (∀ text, '<' ∉ (escapeHtml text).data ∧ '>' ∉ (escapeHtml text).data) := by
  refine ⟨fun text md => ⟨_, rfl⟩, fun text => rfl, fun text => ?_⟩
  constructor
  · intro hmem
    exact (escAux_no_angle text.data '<' hmem).1 rfl
  · intro hmem
    exact (escAux_no_angle text.data '>' hmem).2 rfl

/-! C7.  Error categorization in the POST /api/chat catch block. -/

/-- C7 counterexample: the claim says validation errors are answered
400 VALIDATION_ERROR, but an error whose name is ValidationError and
whose message contains quota is answered 429 QUOTA_EXCEEDED, because the
quota check runs before the validation-error check. -/
theorem error_categorization_cex :
    (categorizeError { code := none, name := some "ValidationError", message := "quota" }).1 = 429 ∧
    (categorizeError { code := none, name := some "ValidationError", message := "quota" }).2.2
      = "QUOTA_EXCEEDED" ∧
    (categorizeError { code := none, name := some "ValidationError", message := "quota" }).1 ≠ 400 := by
  decide

/-- C7 (amended): response status and code for an error raised in
POST /api/chat are determined by matching the error in this priority
order: 400 VALIDATION_ERROR when the message contains Question; else 429
QUOTA_EXCEEDED when the code is RESOURCE_EXHAUSTED or the message
contains quota; else 400 VALIDATION_ERROR when the error is a validation
error; else 503 SERVICE_UNAVAILABLE when the code is ENOTFOUND or
ECONNREFUSED; 500 INTERNAL_ERROR otherwise — so a validation error
whose message mentions quota gets 429, not 400.  Every non-200 response
of the handler carries a JSON envelope with an error message and a
code. -/
theorem error_categorization_amended (e : ErrInfo) :
    (hasSubstr e.message "Question" = true →
      categorizeError e = (400, e.message, "VALIDATION_ERROR")) ∧
    (hasSubstr e.message "Question" = false →
      (e.code = some "RESOURCE_EXHAUSTED" ∨ hasSubstr e.message "quota" = true) →
      categorizeError e = (429, "AI service quota exceeded. Please try again later.", "QUOTA_EXCEEDED")) ∧
    (hasSubstr e.message "Question" = false → e.code ≠ some "RESOURCE_EXHAUSTED" →
      hasSubstr e.message "quota" = false → e.name = some "ValidationError" →
      categorizeError e = (400, "Invalid input data", "VALIDATION_ERROR")) ∧
    (hasSubstr e.message "Question" = false → e.code ≠ some "RESOURCE_EXHAUSTED" →
      hasSubstr e.message "quota" = false → e.name ≠ some "ValidationError" →
      (e.code = some "ENOTFOUND" ∨ e.code = some "ECONNREFUSED") →
      categorizeError e = (503, "Service temporarily unavailable", "SERVICE_UNAVAILABLE")) ∧
    (hasSubstr e.message "Question" = false → e.code ≠ some "RESOURCE_EXHAUSTED" →
      hasSubstr e.message "quota" = false → e.name ≠ some "ValidationError" →
      e.code ≠ some "ENOTFOUND" → e.code ≠ some "ECONNREFUSED" →
      categorizeError e = (500, "Failed to process your request", "INTERNAL_ERROR")) ∧
    (∀ st q hasCtx ai md now ptime tstamp rand ua ip mn tp,
      (postChat st q hasCtx ai md now ptime tstamp rand ua ip mn tp).status ≠ 200 →
      ∃ b, (postChat st q hasCtx ai md now ptime tstamp rand ua ip mn tp).body = PostBody.err b) := by
  refine ⟨?_, ?_, ?_, ?_, ?_, ?_⟩
  · intro h1
    simp [categorizeError, h1]
  · intro h1 h2
    rcases h2 with h2 | h2 <;> simp [categorizeError, h1, h2]
  · intro h1 h2 h3 h4
    simp [categorizeError, h1, h2, h3, h4]
  · intro h1 h2 h3 h4 h5
    rcases h5 with h5 | h5 <;> simp [categorizeError, h1, h2, h3, h4, h5]
  · intro h1 h2 h3 h4 h5 h6
    simp [categorizeError, h1, h2, h3, h4, h5, h6]
  · intro st q hasCtx ai md now ptime tstamp rand ua ip mn tp hs
    cases hv : validateAndSanitizeInput q with
    | error msg =>
      exact ⟨{ error := (categorizeError { code := none, name := none, message := msg }).2.1,
               code := (categorizeError { code := none, name := none, message := msg }).2.2 },
             by simp [postChat, hv]⟩
    | ok sq =>
      cases ai with
      | error er =>
        exact ⟨{ error := (categorizeError er).2.1, code := (categorizeError er).2.2 },
               by simp [postChat, hv]⟩
      | ok text =>
        cases hsv : saveExchange st (mkExchange sq text (formatResponse text md)
            now ptime tstamp rand ua ip hasCtx mn tp) with
        | error er =>
          exact ⟨{ error := (categorizeError er).2.1, code := (categorizeError er).2.2 },
                 by simp [postChat, hv, hsv]⟩
        | ok st2 =>
          exact absurd (by simp [postChat, hv, hsv]) hs

/-- C7 witness: a validation message containing Question is categorized
400 VALIDATION_ERROR. -/
theorem error_categorization_amended_w :
    categorizeError { code := none, name := none, message := "Question cannot be empty" }
      = (400, "Question cannot be empty", "VALIDATION_ERROR") :=
  (error_categorization_amended
    { code := none, name := none, message := "Question cannot be empty" }).1 (by decide)

/-! C2.  Invalid questions are rejected before any external call. -/

/-- C2: a POST /api/chat request whose question is missing, not a string,
empty after trimming, or longer than 5000 characters is answered 400 with
a VALIDATION_ERROR envelope, the AI provider client is never invoked, and
the store is untouched. -/
theorem invalid_question_rejected (st : Store) (q : QVal) (hasCtx : Bool)
    (ai : Except ErrInfo String) (md : MdOutcome) (now ptime tstamp : Nat)
    (rand ua ip mn tp : String)
    (h : q = QVal.missing ∨ q = QVal.notString ∨
      ∃ s, q = QVal.str s ∧ (jsTrim s = "" ∨ (jsTrim s).length > 5000)) :
    (postChat st q hasCtx ai md now ptime tstamp rand ua ip mn tp).status = 400 ∧
    (postChat st q hasCtx ai md now ptime tstamp rand ua ip mn tp).aiCalled = false ∧
    (postChat st q hasCtx ai md now ptime tstamp rand ua ip mn tp).store = st ∧
    ∃ b, (postChat st q hasCtx ai md now ptime tstamp rand ua ip mn tp).body = PostBody.err b ∧
      b.code = "VALIDATION_ERROR" := by
  have hv : ∃ msg, validateAndSanitizeInput q = Except.error msg ∧
      hasSubstr msg "Question" = true := by
    rcases h with rfl | rfl | ⟨s, rfl, hs⟩
    · exact ⟨_, rfl, by decide⟩
    · exact ⟨_, rfl, by decide⟩
    · by_cases h0 : s = ""
      · exact ⟨"Question must be a non-empty string",
          by simp [validateAndSanitizeInput, h0], by decide⟩
      · rcases hs with hs | hs
        · have h1 : (jsTrim s).length = 0 := by rw [hs]; rfl
          exact ⟨"Question cannot be empty",
            by simp [validateAndSanitizeInput, h0, h1], by decide⟩
        · have h1 : ¬(jsTrim s).length = 0 := by omega
          exact ⟨"Question is too long (maximum 5000 characters)",
            by simp [validateAndSanitizeInput, h0, h1, hs], by decide⟩
  obtain ⟨msg, hv, hq⟩ := hv
  refine ⟨?_, ?_, ?_, ⟨{ error := msg, code := "VALIDATION_ERROR" }, ?_, rfl⟩⟩ <;>
    simp [postChat, hv, categorizeError, hq]

/-- C2 witness: a whitespace-only question is rejected with 400, no AI
call, store untouched. -/
theorem invalid_question_rejected_w :
    (postChat [] (QVal.str "   ") false (Except.ok "hello") (MdOutcome.renderOk "x")
      1 2 3 "r" "ua" "ip" "m" "t").status = 400 ∧
    (postChat [] (QVal.str "   ") false (Except.ok "hello") (MdOutcome.renderOk "x")
      1 2 3 "r" "ua" "ip" "m" "t").aiCalled = false ∧
    (postChat [] (QVal.str "   ") false (Except.ok "hello") (MdOutcome.renderOk "x")
      1 2 3 "r" "ua" "ip" "m" "t").store = [] ∧
    ∃ b, (postChat [] (QVal.str "   ") false (Except.ok "hello") (MdOutcome.renderOk "x")
      1 2 3 "r" "ua" "ip" "m" "t").body = PostBody.err b ∧ b.code = "VALIDATION_ERROR" :=
  invalid_question_rejected [] (QVal.str "   ") false (Except.ok "hello")
    (MdOutcome.renderOk "x") 1 2 3 "r" "ua" "ip" "m" "t"
    (Or.inr (Or.inr ⟨"   ", rfl, Or.inl (by decide)⟩))

/-! C6.  Pagination of GET /api/chat. -/

/-- C6: a GET /api/chat list response contains at most min(limit, 50)
records, where the limit defaults to 10 and the per-page limit is capped
at 50, and those records are taken after skipping (page - 1) times the
effective limit records of the sorted, filtered store, with sensitive
metadata excluded. -/
theorem list_pagination_capped (st : Store) (q : ListQuery) :
    (listChat st q).responses.length ≤ min (parseIntOr q.limit 10) 50 ∧
    (listChat st q).responses =
      ((((sortList (listLe (strOr q.sortBy "timestamp") (if q.sortOrder = some "asc" then 1 else -1))
          (st.filter (listFilter (q.starred == some "true") q.minRating))).drop
            ((parseIntOr q.page 1 - 1) * min (parseIntOr q.limit 10) 50)).take
            (min (parseIntOr q.limit 10) 50)).map scrubExchange) := by
  constructor
  · show ((((sortList _ _).drop _).take (min (parseIntOr q.limit 10) 50)).map scrubExchange).length ≤ _
    rw [List.length_map, List.length_take]
    exact min_le_left _ _
  · rfl

/-! C5.  DELETE /api/chat/:id. -/

/-- C5: DELETE /api/chat/:id answers 404 exactly when no exchange with
the given id exists, and then leaves the store unchanged; when such an
exchange exists, it answers 200 and removes exactly the first exchange
with that id, all others unchanged. -/
theorem delete_by_id (st : Store) (i : String) :
    ((deleteChat st i).status = 404 ↔ ∀ e ∈ st, e.id ≠ i) ∧
    ((deleteChat st i).status = 404 → (deleteChat st i).store = st) ∧
    (∀ pre e post, st = pre ++ e :: post → e.id = i → (∀ x ∈ pre, x.id ≠ i) →
      (deleteChat st i).status = 200 ∧ (deleteChat st i).store = pre ++ post) := by
  refine ⟨?_, ?_, ?_⟩
  · cases hf : st.find? (fun e => e.id == i) with
    | none =>
      simp only [deleteChat, hf]
      constructor
      · intro _ e he
        have := List.find?_eq_none.mp hf e he
        simpa using this
      · intro _
        trivial
    | some e =>
      simp only [deleteChat, hf]
      constructor
      · intro h
        exact absurd h (by decide)
      · intro h
        have hmem := List.mem_of_find?_eq_some hf
        have hp := List.find?_some hf
        exact absurd (by simpa using hp) (h e hmem)
  · intro h
    cases hf : st.find? (fun e => e.id == i) with
    | none => simp [deleteChat, hf]
    | some e => simp [deleteChat, hf] at h
  · intro pre e post hst he hpre
    subst hst
    have hpe : (fun x : Exchange => x.id == i) e = true := by simp [he]
    have hpf : ∀ x ∈ pre, (fun x : Exchange => x.id == i) x = false := by
      intro x hx
      simp [hpre x hx]
    have hfind := find?_split _ pre post e hpf hpe
    constructor
    · simp [deleteChat, hfind]
    · simp only [deleteChat, hfind]
      exact removeFirst_split _ pre post e hpf hpe

/-- A concrete exchange used to instantiate theorems with hypotheses. -/
def sampleEx : Exchange :=
  { id := "a", question := "hi", answer := "yo", formattedAnswer := "<p>hi</p>",
    processingTime := 1
    metadata :=
      { hasContext := false, questionLength := 2, responseLength := 2,
        userAgent := some "ua", ipAddress := some "ip", model := "m", temperature := "0.7" }
    tags := [], rating := none, isStarred := false, timestamp := 5 }

/-- C5 witness: deleting the only record of a one-record store by its id
answers 200 and empties the store. -/
theorem delete_by_id_w :
    (deleteChat [sampleEx] "a").status = 200 ∧ (deleteChat [sampleEx] "a").store = [] ++ [] :=
  (delete_by_id [sampleEx] "a").2.2 [] sampleEx [] rfl rfl (by simp)

/-! Helpers for the save, update and remove operations. -/

/-- The invariant on one persisted exchange: non-empty trimmed question
of at most 5000 characters, non-empty answer, rating in 1..5 when
present. -/
def exchangeInv (e : Exchange) : Prop :=
  e.question ≠ "" ∧ e.question = jsTrim e.question ∧ e.question.length ≤ 5000 ∧
  e.answer ≠ "" ∧ ∀ r, e.rating = some r → 1 ≤ r ∧ r ≤ 5

/-- The invariant on the whole store. -/
def storeInv (st : Store) : Prop := ∀ e ∈ st, exchangeInv e

theorem validExchange_elim (e : Exchange) (h : validExchange e = true) :
    e.question ≠ "" ∧ e.question.length ≤ 5000 ∧ e.answer ≠ "" ∧
    ∀ r, e.rating = some r → 1 ≤ r ∧ r ≤ 5 := by
  unfold validExchange at h
  simp only [Bool.and_eq_true, Bool.not_eq_true', beq_eq_false_iff_ne, ne_eq,
    decide_eq_true_eq] at h
  obtain ⟨⟨⟨⟨⟨h1, h2⟩, h3⟩, h4⟩, h5⟩, h6⟩ := h
  refine ⟨h2, h3, h4, ?_⟩
  intro r hr
  rw [hr] at h6
  simp only [Bool.and_eq_true, decide_eq_true_eq] at h6
  exact h6

theorem saveExchange_ok_elim (st : Store) (e : Exchange) (st2 : Store)
    (h : saveExchange st e = Except.ok st2) :
    validExchange e = true ∧ (∀ x ∈ st, ¬x.id = e.id) ∧ st2 = st ++ [e] := by
  unfold saveExchange at h
  by_cases h1 : validExchange e
  · rw [if_neg (by simp [h1])] at h
    by_cases h2 : st.any (fun x => x.id == e.id)
    · rw [if_pos h2] at h
      simp at h
    · rw [if_neg h2] at h
      simp only [Except.ok.injEq] at h
      refine ⟨h1, ?_, h.symm⟩
      intro x hx hxe
      apply h2
      exact List.any_eq_true.mpr ⟨x, hx, by simp [hxe]⟩
  · rw [if_pos (by simp [Bool.not_eq_true] at h1 ⊢; exact h1)] at h
    simp at h

theorem exchangeInv_mkExchange (sq text fmt : String) (now ptime tstamp : Nat)
    (rand ua ip : String) (hasCtx : Bool) (mn tp : String)
    (h : validExchange (mkExchange sq text fmt now ptime tstamp rand ua ip hasCtx mn tp) = true) :
    exchangeInv (mkExchange sq text fmt now ptime tstamp rand ua ip hasCtx mn tp) := by
  obtain ⟨h1, h2, h3, h4⟩ := validExchange_elim _ h
  refine ⟨h1, ?_, h2, h3, h4⟩
  show jsTrim sq = jsTrim (jsTrim sq)
  rw [jsTrim_idem]

theorem mem_updateFirst (p : Exchange → Bool) (f : Exchange → Exchange) (l : Store)
    (x : Exchange) (hx : x ∈ updateFirst p f l) : x ∈ l ∨ ∃ y ∈ l, x = f y := by
  induction l with
  | nil => simp [updateFirst] at hx
  | cons a t ih =>
    unfold updateFirst at hx
    by_cases ha : p a
    · rw [if_pos ha] at hx
      rcases List.mem_cons.mp hx with rfl | hx2
      · right
        exact ⟨a, by simp, rfl⟩
      · left
        simp [hx2]
    · rw [if_neg ha] at hx
      rcases List.mem_cons.mp hx with rfl | hx2
      · left
        simp
      · rcases ih hx2 with h | ⟨y, hy, rfl⟩
        · left
          simp [h]
        · right
          exact ⟨y, by simp [hy], rfl⟩

theorem applyUpdateData_inv (r : UpdateReq) (x : Exchange) (h : exchangeInv x) :
    exchangeInv (applyUpdateData r x) := by
  obtain ⟨h1, h2, h3, h4, h5⟩ := h
  refine ⟨h1, h2, h3, h4, ?_⟩
  intro v hv
  have hv : (match r.rating with
    | some w => if w ≠ 0 ∧ 1 ≤ w ∧ w ≤ 5 then some w else x.rating
    | none => x.rating) = some v := hv
  cases hr : r.rating with
  | none =>
    rw [hr] at hv
    exact h5 v hv
  | some w =>
    rw [hr] at hv
    have hv2 : (if w ≠ 0 ∧ 1 ≤ w ∧ w ≤ 5 then some w else x.rating) = some v := hv
    by_cases hc : w ≠ 0 ∧ 1 ≤ w ∧ w ≤ 5
    · rw [if_pos hc] at hv2
      cases hv2
      exact ⟨hc.2.1, hc.2.2⟩
    · rw [if_neg hc] at hv2
      exact h5 v hv2

theorem map_id_updateFirst (p : Exchange → Bool) (f : Exchange → Exchange)
    (hf : ∀ x, (f x).id = x.id) (l : Store) :
    (updateFirst p f l).map Exchange.id = l.map Exchange.id := by
  induction l with
  | nil => rfl
  | cons a t ih =>
    unfold updateFirst
    by_cases hp : p a
    · rw [if_pos hp]
      simp [List.map_cons, hf]
    · rw [if_neg hp]
      simp [List.map_cons, ih]

theorem removeFirst_sublist (p : Exchange → Bool) (l : Store) :
    (removeFirst p l).Sublist l := by
  induction l with
  | nil => exact List.Sublist.refl _
  | cons a t ih =>
    unfold removeFirst
    by_cases hp : p a
    · rw [if_pos hp]
      exact (List.Sublist.refl t).cons a
    · rw [if_neg hp]
      exact ih.cons₂ a

/-! C4.  PUT /api/chat/:id updates only whitelisted fields. -/

/-- C4: a PUT /api/chat/:id applied to an existing exchange answers 200
and patches the store with the whitelist update; that update can change
only isStarred (and only to a boolean request value), rating (and only
to a request value in 1..5) and tags (and only to a request array); id,
question, answer, formattedAnswer, processingTime, metadata and
timestamp are unchanged. -/
theorem put_whitelist (st : Store) (i : String) (r : UpdateReq) (e : Exchange)
    (h : st.find? (fun x => x.id == i) = some e) :
    (putChat st i r).status = 200 ∧
    (putChat st i r).record = some (scrubExchange (applyUpdateData r e)) ∧
    (putChat st i r).store = updateFirst (fun x => x.id == i) (applyUpdateData r) st ∧
    (∀ x : Exchange,
      (applyUpdateData r x).id = x.id ∧
      (applyUpdateData r x).question = x.question ∧
      (applyUpdateData r x).answer = x.answer ∧
      (applyUpdateData r x).formattedAnswer = x.formattedAnswer ∧
      (applyUpdateData r x).processingTime = x.processingTime ∧
      (applyUpdateData r x).metadata = x.metadata ∧
      (applyUpdateData r x).timestamp = x.timestamp ∧
      ((applyUpdateData r x).isStarred = x.isStarred ∨
        ∃ b, r.isStarred = BVal.val b ∧ (applyUpdateData r x).isStarred = b) ∧
      ((applyUpdateData r x).rating = x.rating ∨
        ∃ v, r.rating = some v ∧ 1 ≤ v ∧ v ≤ 5 ∧ (applyUpdateData r x).rating = some v) ∧
      ((applyUpdateData r x).tags = x.tags ∨
        ∃ l, r.tags = TVal.arr l ∧ (applyUpdateData r x).tags = l)) := by
  refine ⟨by simp [putChat, h], by simp [putChat, h], by simp [putChat, h], ?_⟩
  intro x
  refine ⟨rfl, rfl, rfl, rfl, rfl, rfl, rfl, ?_, ?_, ?_⟩
  · cases hrs : r.isStarred with
    | absent =>
      left
      simp [applyUpdateData, hrs]
    | notBool =>
      left
      simp [applyUpdateData, hrs]
    | val b =>
      right
      exact ⟨b, rfl, by simp [applyUpdateData, hrs]⟩
  · cases hr : r.rating with
    | none =>
      left
      simp [applyUpdateData, hr]
    | some v =>
      by_cases hc : v ≠ 0 ∧ 1 ≤ v ∧ v ≤ 5
      · right
        exact ⟨v, rfl, hc.2.1, hc.2.2, by simp [applyUpdateData, hr, hc]⟩
      · left
        simp [applyUpdateData, hr, hc]
  · cases hrt : r.tags with
    | absent =>
      left
      simp [applyUpdateData, hrt]
    | notArr =>
      left
      simp [applyUpdateData, hrt]
    | arr l =>
      right
      exact ⟨l, rfl, by simp [applyUpdateData, hrt]⟩

/-- C4 witness: starring and rating the one record of a one-record store. -/
theorem put_whitelist_w :
    (putChat [sampleEx] "a" { isStarred := BVal.val true, rating := some 4, tags := TVal.arr ["t"] }).status = 200 ∧
    (putChat [sampleEx] "a" { isStarred := BVal.val true, rating := some 4, tags := TVal.arr ["t"] }).record
      = some (scrubExchange (applyUpdateData
          { isStarred := BVal.val true, rating := some 4, tags := TVal.arr ["t"] } sampleEx)) ∧
    (putChat [sampleEx] "a" { isStarred := BVal.val true, rating := some 4, tags := TVal.arr ["t"] }).store
      = updateFirst (fun x => x.id == "a")
          (applyUpdateData { isStarred := BVal.val true, rating := some 4, tags := TVal.arr ["t"] })
          [sampleEx] ∧
    (∀ x : Exchange,
      (applyUpdateData { isStarred := BVal.val true, rating := some 4, tags := TVal.arr ["t"] } x).id = x.id ∧
      (applyUpdateData { isStarred := BVal.val true, rating := some 4, tags := TVal.arr ["t"] } x).question = x.question ∧
      (applyUpdateData { isStarred := BVal.val true, rating := some 4, tags := TVal.arr ["t"] } x).answer = x.answer ∧
      (applyUpdateData { isStarred := BVal.val true, rating := some 4, tags := TVal.arr ["t"] } x).formattedAnswer = x.formattedAnswer ∧
      (applyUpdateData { isStarred := BVal.val true, rating := some 4, tags := TVal.arr ["t"] } x).processingTime = x.processingTime ∧
      (applyUpdateData { isStarred := BVal.val true, rating := some 4, tags := TVal.arr ["t"] } x).metadata = x.metadata ∧
      (applyUpdateData { isStarred := BVal.val true, rating := some 4, tags := TVal.arr ["t"] } x).timestamp = x.timestamp ∧
      ((applyUpdateData { isStarred := BVal.val true, rating := some 4, tags := TVal.arr ["t"] } x).isStarred = x.isStarred ∨
        ∃ b, BVal.val true = BVal.val b ∧
          (applyUpdateData { isStarred := BVal.val true, rating := some 4, tags := TVal.arr ["t"] } x).isStarred = b) ∧
      ((applyUpdateData { isStarred := BVal.val true, rating := some 4, tags := TVal.arr ["t"] } x).rating = x.rating ∨
        ∃ v, (some 4 : Option Int) = some v ∧ 1 ≤ v ∧ v ≤ 5 ∧
          (applyUpdateData { isStarred := BVal.val true, rating := some 4, tags := TVal.arr ["t"] } x).rating = some v) ∧
      ((applyUpdateData { isStarred := BVal.val true, rating := some 4, tags := TVal.arr ["t"] } x).tags = x.tags ∨
        ∃ l, TVal.arr ["t"] = TVal.arr l ∧
          (applyUpdateData { isStarred := BVal.val true, rating := some 4, tags := TVal.arr ["t"] } x).tags = l)) :=
  put_whitelist [sampleEx] "a"
    { isStarred := BVal.val true, rating := some 4, tags := TVal.arr ["t"] } sampleEx (by decide)

/-! C3.  The persistence invariant. -/

/-- C3: every exchange reachable through the API operations has a
non-empty question and answer, a trimmed question of at most 5000
characters, and a rating (when present) in 1..5: the create, update
and delete handlers all preserve the store invariant. -/
theorem store_invariant_preserved (st : Store) (q : QVal) (hasCtx : Bool)
    (ai : Except ErrInfo String) (md : MdOutcome) (now ptime tstamp : Nat)
    (rand ua ip mn tp : String) (i : String) (r : UpdateReq)
    (h : storeInv st) :
    storeInv (postChat st q hasCtx ai md now ptime tstamp rand ua ip mn tp).store ∧
    storeInv (putChat st i r).store ∧
    storeInv (deleteChat st i).store := by
  refine ⟨?_, ?_, ?_⟩
  · cases hv : validateAndSanitizeInput q with
    | error msg => simpa [postChat, hv] using h
    | ok sq =>
      cases ai with
      | error er => simpa [postChat, hv] using h
      | ok text =>
        cases hsv : saveExchange st (mkExchange sq text (formatResponse text md)
            now ptime tstamp rand ua ip hasCtx mn tp) with
        | error er => simpa [postChat, hv, hsv] using h
        | ok st2 =>
          obtain ⟨hval, hfresh, hst2⟩ := saveExchange_ok_elim st _ st2 hsv
          have hstore : (postChat st q hasCtx (Except.ok text) md now ptime tstamp
              rand ua ip mn tp).store = st2 := by
            simp [postChat, hv, hsv]
          rw [hstore, hst2]
          intro e he
          rcases List.mem_append.mp he with he | he
          · exact h e he
          · rw [List.mem_singleton] at he
            subst he
            exact exchangeInv_mkExchange _ _ _ _ _ _ _ _ _ _ _ _ hval
  · cases hf : st.find? (fun x => x.id == i) with
    | none => simpa [putChat, hf] using h
    | some e =>
      have hstore : (putChat st i r).store
          = updateFirst (fun x => x.id == i) (applyUpdateData r) st := by
        simp [putChat, hf]
      rw [hstore]
      intro x hx
      rcases mem_updateFirst _ _ _ _ hx with hmem | ⟨y, hy, rfl⟩
      · exact h x hmem
      · exact applyUpdateData_inv r y (h y hy)
  · cases hf : st.find? (fun x => x.id == i) with
    | none => simpa [deleteChat, hf] using h
    | some e =>
      have hstore : (deleteChat st i).store = removeFirst (fun x => x.id == i) st := by
        simp [deleteChat, hf]
      rw [hstore]
      intro x hx
      exact h x ((removeFirst_sublist _ st).subset hx)

/-- C3 witness: creating, updating and deleting starting from the empty
store preserves the invariant. -/
theorem store_invariant_preserved_w :
    storeInv (postChat [] (QVal.str "hi") false (Except.ok "yo") (MdOutcome.renderOk "x")
      1 2 3 "r" "ua" "ip" "m" "t").store ∧
    storeInv (putChat [] "a" { isStarred := BVal.absent, rating := none, tags := TVal.absent }).store ∧
    storeInv (deleteChat [] "a").store :=
  store_invariant_preserved [] (QVal.str "hi") false (Except.ok "yo") (MdOutcome.renderOk "x")
    1 2 3 "r" "ua" "ip" "m" "t" "a"
    { isStarred := BVal.absent, rating := none, tags := TVal.absent }
    (fun e he => absurd he (List.not_mem_nil e))

/-! C8.  Uniqueness and shape of ids. -/

/-- No two exchanges of the store share an id. -/
def idsNodup (st : Store) : Prop := (st.map Exchange.id).Nodup

/-- C8: the id field identifies at most one exchange — id-uniqueness of
the store is preserved by the create, update and delete handlers (the
unique index rejects a duplicate id at save time) — and the id of a
created exchange is the string built from the creation timestamp, a dash
and the random suffix. -/
theorem ids_unique_generated (st : Store) (q : QVal) (hasCtx : Bool)
    (ai : Except ErrInfo String) (md : MdOutcome) (now ptime tstamp : Nat)
    (rand ua ip mn tp : String) (i : String) (r : UpdateReq)
    (h : idsNodup st) :
    idsNodup (postChat st q hasCtx ai md now ptime tstamp rand ua ip mn tp).store ∧
    idsNodup (putChat st i r).store ∧
    idsNodup (deleteChat st i).store ∧
    ((postChat st q hasCtx ai md now ptime tstamp rand ua ip mn tp).store = st ∨
      ∃ ex, (postChat st q hasCtx ai md now ptime tstamp rand ua ip mn tp).store = st ++ [ex] ∧
        ex.id = toString now ++ "-" ++ rand ∧ ∀ x ∈ st, x.id ≠ ex.id) := by
  have hput : idsNodup (putChat st i r).store := by
    cases hf : st.find? (fun x => x.id == i) with
    | none => simpa [putChat, hf] using h
    | some e =>
      have hstore : (putChat st i r).store
          = updateFirst (fun x => x.id == i) (applyUpdateData r) st := by
        simp [putChat, hf]
      rw [hstore]
      show ((updateFirst _ _ st).map Exchange.id).Nodup
      rw [map_id_updateFirst (fun x => x.id == i) (applyUpdateData r) (fun x => rfl)]
      exact h
  have hdel : idsNodup (deleteChat st i).store := by
    cases hf : st.find? (fun x => x.id == i) with
    | none => simpa [deleteChat, hf] using h
    | some e =>
      have hstore : (deleteChat st i).store = removeFirst (fun x => x.id == i) st := by
        simp [deleteChat, hf]
      rw [hstore]
      exact List.Nodup.sublist (List.Sublist.map _ (removeFirst_sublist _ st)) h
  cases hv : validateAndSanitizeInput q with
  | error msg =>
    have hstore : (postChat st q hasCtx ai md now ptime tstamp rand ua ip mn tp).store = st := by
      simp [postChat, hv]
    rw [hstore]
    exact ⟨h, hput, hdel, Or.inl rfl⟩
  | ok sq =>
    cases ai with
    | error er =>
      have hstore : (postChat st q hasCtx (Except.error er) md now ptime tstamp
          rand ua ip mn tp).store = st := by
        simp [postChat, hv]
      rw [hstore]
      exact ⟨h, hput, hdel, Or.inl rfl⟩
    | ok text =>
      cases hsv : saveExchange st (mkExchange sq text (formatResponse text md)
          now ptime tstamp rand ua ip hasCtx mn tp) with
      | error er =>
        have hstore : (postChat st q hasCtx (Except.ok text) md now ptime tstamp
            rand ua ip mn tp).store = st := by
          simp [postChat, hv, hsv]
        rw [hstore]
        exact ⟨h, hput, hdel, Or.inl rfl⟩
      | ok st2 =>
        obtain ⟨hval, hfresh, hst2⟩ := saveExchange_ok_elim st _ st2 hsv
        have hstore : (postChat st q hasCtx (Except.ok text) md now ptime tstamp
            rand ua ip mn tp).store = st2 := by
          simp [postChat, hv, hsv]
        rw [hstore, hst2]
        refine ⟨?_, hput, hdel, Or.inr ⟨_, rfl, rfl, fun x hx => hfresh x hx⟩⟩
    -- nodup of the appended store
        show ((st ++ [mkExchange sq text (formatResponse text md)
          now ptime tstamp rand ua ip hasCtx mn tp]).map Exchange.id).Nodup
        rw [List.map_append, List.nodup_append]
        refine ⟨h, by simp, ?_⟩
        intro a ha hb
        simp only [List.map_cons, List.map_nil, List.mem_singleton] at hb
        rcases List.mem_map.mp ha with ⟨x, hx, rfl⟩
        exact hfresh x hx (hb)

/-- C8 witness: creating into the empty store yields a singleton store
whose sole id has the timestamp-dash-random shape. -/
theorem ids_unique_generated_w :
    idsNodup (postChat [] (QVal.str "hi") false (Except.ok "yo") (MdOutcome.renderOk "x")
      1 2 3 "r" "ua" "ip" "m" "t").store ∧
    idsNodup (putChat [] "a" { isStarred := BVal.absent, rating := none, tags := TVal.absent }).store ∧
    idsNodup (deleteChat [] "a").store ∧
    ((postChat [] (QVal.str "hi") false (Except.ok "yo") (MdOutcome.renderOk "x")
      1 2 3 "r" "ua" "ip" "m" "t").store = [] ∨
      ∃ ex, (postChat [] (QVal.str "hi") false (Except.ok "yo") (MdOutcome.renderOk "x")
        1 2 3 "r" "ua" "ip" "m" "t").store = [] ++ [ex] ∧
        ex.id = toString 1 ++ "-" ++ "r" ∧ ∀ x ∈ ([] : Store), x.id ≠ ex.id) :=
  ids_unique_generated [] (QVal.str "hi") false (Except.ok "yo") (MdOutcome.renderOk "x")
    1 2 3 "r" "ua" "ip" "m" "t" "a"
    { isStarred := BVal.absent, rating := none, tags := TVal.absent }
    List.nodup_nil

/-! C1.  Create followed by get. -/

theorem mkId_ne_empty (now : Nat) (rand : String) : mkId now rand ≠ "" := by
  apply ne_empty_of_length_ne_zero
  unfold mkId
  rw [String.length_append, String.length_append]
  have h1 : ("-" : String).length = 1 := rfl
  omega

set_option maxRecDepth 8192 in
theorem formatResponse_ne_empty (t : String) (md : MdOutcome) : formatResponse t md ≠ "" := by
  apply ne_empty_of_length_ne_zero
  cases md with
  | renderOk html =>
    show (proseWrapperOpen ++ html ++ "\n    </div>").length ≠ 0
    rw [String.length_append, String.length_append]
    have h1 : proseWrapperOpen.length ≠ 0 := by decide
    omega
  | renderThrow =>
    show (fallbackOpen ++ escapeHtml t ++ "</p>\n    </div>").length ≠ 0
    rw [String.length_append, String.length_append]
    have h1 : fallbackOpen.length ≠ 0 := by decide
    omega

/-- C1 counterexample: a valid question for which the AI provider call
succeeds with the empty string is not persisted — the answer path is
required by the schema, so the save is rejected, the handler answers
400, the store stays empty and the subsequent get is a 404 — whereas the
claim promises a 200 with a persisted, retrievable record for every
successful AI call. -/
theorem create_empty_answer_cex :
    (postChat [] (QVal.str "hi") false (Except.ok "") (MdOutcome.renderOk "x")
      1 2 3 "r" "ua" "ip" "m" "t").status = 400 ∧
    (postChat [] (QVal.str "hi") false (Except.ok "") (MdOutcome.renderOk "x")
      1 2 3 "r" "ua" "ip" "m" "t").store = [] ∧
    (getChatById (postChat [] (QVal.str "hi") false (Except.ok "") (MdOutcome.renderOk "x")
      1 2 3 "r" "ua" "ip" "m" "t").store (mkId 1 "r")).status = 404 := by
  decide

/-- C1 (amended): for every valid question for which the AI provider
call succeeds with a non-empty response text and the freshly generated
id is not already in the store, POST /api/chat persists a new exchange,
answers 200 with its id, and a subsequent GET /api/chat/:id with that id
answers 200 with a record whose question is the sanitized question and
whose answer equals the answer returned by the create. -/
theorem create_then_get_roundtrip (st : Store) (q : QVal) (sq text : String)
    (hasCtx : Bool) (md : MdOutcome) (now ptime tstamp : Nat) (rand ua ip mn tp : String)
    (hv : validateAndSanitizeInput q = Except.ok sq)
    (ht : text ≠ "")
    (hfresh : ∀ e ∈ st, e.id ≠ mkId now rand) :
    (postChat st q hasCtx (Except.ok text) md now ptime tstamp rand ua ip mn tp).status = 200 ∧
    (postChat st q hasCtx (Except.ok text) md now ptime tstamp rand ua ip mn tp).body
      = PostBody.ok
          { id := mkId now rand, answer := text,
            formattedAnswer := formatResponse text md,
            timestamp := tstamp, processingTime := ptime } ∧
    (getChatById (postChat st q hasCtx (Except.ok text) md now ptime tstamp
        rand ua ip mn tp).store (mkId now rand)).status = 200 ∧
    ∃ rec, (getChatById (postChat st q hasCtx (Except.ok text) md now ptime tstamp
        rand ua ip mn tp).store (mkId now rand)).record = some rec ∧
      rec.question = sq ∧ rec.answer = text := by
  obtain ⟨s, hqs, hsq, hlen0, hlen⟩ := validate_ok_elim q sq hv
  have hquestion : (mkExchange sq text (formatResponse text md) now ptime tstamp
      rand ua ip hasCtx mn tp).question = sq := by
    show jsTrim sq = sq
    rw [hsq, jsTrim_idem]
  have hval : validExchange (mkExchange sq text (formatResponse text md) now ptime tstamp
      rand ua ip hasCtx mn tp) = true := by
    unfold validExchange
    simp only [Bool.and_eq_true, Bool.not_eq_true', beq_eq_false_iff_ne, ne_eq,
      decide_eq_true_eq]
    refine ⟨⟨⟨⟨⟨?_, ?_⟩, ?_⟩, ?_⟩, ?_⟩, ?_⟩
    · exact mkId_ne_empty now rand
    · rw [hquestion]
      exact ne_empty_of_length_ne_zero sq hlen0
    · rw [hquestion]
      exact hlen
    · exact ht
    · exact formatResponse_ne_empty text md
    · trivial
  have hany : st.any (fun x => x.id == (mkExchange sq text (formatResponse text md)
      now ptime tstamp rand ua ip hasCtx mn tp).id) = false := by
    rw [List.any_eq_false]
    intro x hx
    simpa using hfresh x hx
  have hsave : saveExchange st (mkExchange sq text (formatResponse text md) now ptime tstamp
      rand ua ip hasCtx mn tp) = Except.ok (st ++ [mkExchange sq text (formatResponse text md)
      now ptime tstamp rand ua ip hasCtx mn tp]) := by
    unfold saveExchange
    rw [if_neg (by simp [hval]), if_neg (by simp [hany])]
  have hstore : (postChat st q hasCtx (Except.ok text) md now ptime tstamp
      rand ua ip mn tp).store = st ++ [mkExchange sq text (formatResponse text md)
      now ptime tstamp rand ua ip hasCtx mn tp] := by
    simp [postChat, hv, hsave]
  have hfind : (st ++ [mkExchange sq text (formatResponse text md) now ptime tstamp
      rand ua ip hasCtx mn tp]).find? (fun e => e.id == mkId now rand)
      = some (mkExchange sq text (formatResponse text md) now ptime tstamp
          rand ua ip hasCtx mn tp) := by
    rw [List.find?_append]
    have h1 : st.find? (fun e => e.id == mkId now rand) = none :=
      List.find?_eq_none.mpr (fun x hx => by simpa using hfresh x hx)
    rw [h1]
    have hbeq : ((mkExchange sq text (formatResponse text md) now ptime tstamp
        rand ua ip hasCtx mn tp).id == mkId now rand) = true := by
      show (mkId now rand == mkId now rand) = true
      simp
    simp [List.find?, hbeq]
  refine ⟨by simp [postChat, hv, hsave], (by simp [postChat, hv, hsave]; rfl), ?_, ?_⟩
  · rw [hstore]
    simp [getChatById, hfind]
  · rw [hstore]
    refine ⟨scrubExchange (mkExchange sq text (formatResponse text md) now ptime tstamp
      rand ua ip hasCtx mn tp), ?_, ?_, rfl⟩
    · simp [getChatById, hfind]
    · rw [scrub_question]
      exact hquestion

/-- C1 witness: creating a concrete valid question into the empty store
and reading it back. -/
theorem create_then_get_roundtrip_w :
    (postChat [] (QVal.str "hi") false (Except.ok "yo") (MdOutcome.renderOk "x")
      1 2 3 "r" "ua" "ip" "m" "t").status = 200 ∧
    (postChat [] (QVal.str "hi") false (Except.ok "yo") (MdOutcome.renderOk "x")
      1 2 3 "r" "ua" "ip" "m" "t").body
      = PostBody.ok
          { id := mkId 1 "r", answer := "yo",
            formattedAnswer := formatResponse "yo" (MdOutcome.renderOk "x"),
            timestamp := 3, processingTime := 2 } ∧
    (getChatById (postChat [] (QVal.str "hi") false (Except.ok "yo") (MdOutcome.renderOk "x")
      1 2 3 "r" "ua" "ip" "m" "t").store (mkId 1 "r")).status = 200 ∧
    ∃ rec, (getChatById (postChat [] (QVal.str "hi") false (Except.ok "yo") (MdOutcome.renderOk "x")
      1 2 3 "r" "ua" "ip" "m" "t").store (mkId 1 "r")).record = some rec ∧
      rec.question = "hi" ∧ rec.answer = "yo" :=
  create_then_get_roundtrip [] (QVal.str "hi") "hi" "yo" false (MdOutcome.renderOk "x")
    1 2 3 "r" "ua" "ip" "m" "t" rfl (by decide) (fun e he => absurd he (List.not_mem_nil e))

/-! C9.  Sensitive metadata never reaches any read endpoint. -/

theorem listFilter_scrub (s : Bool) (m : Option Int) (e : Exchange) :
    listFilter s m (scrubExchange e) = listFilter s m e := by
  cases m <;> simp [listFilter]

end ChatMosaic
